import Mathlib

/-!
Shallow embedding of the Hugging Face provider adapter layer (package
huggingface of the bifrost repository): alias resolution, request
preparation, chat-to-text response conversion, the text-completion
stream relay, embedding request/response conversion, error-message
mapping, and model-catalog capability derivation.

Go channels and streams are modelled as lists (the end of the list is
the channel closing, which therefore happens exactly once); Go nil
pointers are modelled as Option.none; Go maps are modelled as
association lists; Go strings are Lean strings (byte length and char
length agree on the ASCII inputs used in the claims).
-/

namespace Bifrost

/-- Request kinds from the schemas package (schemas.RequestType values
used by the huggingface package). -/
inductive RequestType where
  | chatCompletionRequest
  | chatCompletionStreamRequest
  | textCompletionRequest
  | textCompletionStreamRequest
  | embeddingRequest
  | responsesRequest
  | responsesStreamRequest
  | listModelsRequest
deriving DecidableEq, Repr

/-- Key.HuggingFaceKeyConfig: holds the per-key alias map Deployments
(requested model name to deployment name). -/
structure HFKeyConfig where
  deployments : List (String × String)
deriving DecidableEq, Repr

/-- schemas.Key: credential value plus optional Hugging Face config. -/
structure Key where
  value : String
  huggingFaceKeyConfig : Option HFKeyConfig
deriving DecidableEq, Repr

/-- Model of Go strings.TrimSpace: drop leading and trailing whitespace
characters (structurally recursive so that proofs can evaluate it; the
inputs involved are ASCII, where this agrees with Go's Unicode trim). -/
def trimSpace (s : String) : String :=
  ⟨((s.data.dropWhile Char.isWhitespace).reverse.dropWhile Char.isWhitespace).reverse⟩

/-- Model of Go strings.ToLower (structurally recursive over the
characters; the inputs involved are ASCII). -/
def strToLower (s : String) : String :=
  ⟨s.data.map Char.toLower⟩

/-- Association-list lookup modelling Go map indexing
(deployment, ok := Deployments[requestedModel]). -/
def lookupDeployment (deployments : List (String × String)) (requestedModel : String) : Option String :=
  match deployments with
  | [] => none
  | (k, v) :: rest => if k = requestedModel then some v else lookupDeployment rest requestedModel

/-- resolveModelAlias (huggingface.go): returns the deployment name for
the requested model when the key carries a non-empty alias entry, else
the requested model unchanged; the Bool records whether the name changed. -/
def resolveModelAlias (key : Key) (requestedModel : String) : String × Bool :=
  match key.huggingFaceKeyConfig with
  | none => (requestedModel, false)
  | some cfg =>
    if cfg.deployments.length = 0 then (requestedModel, false)
    else
      match lookupDeployment cfg.deployments requestedModel with
      | some deployment =>
        if trimSpace deployment ≠ "" then (deployment, deployment != requestedModel)
        else (requestedModel, false)
      | none => (requestedModel, false)

/-- schemas.ChatMessageContent as accessed by this package: the optional
plain-string content (Content.ContentStr). -/
structure ChatMessageContent where
  contentStr : Option String
deriving DecidableEq, Repr

/-- schemas.ChatMessage as accessed by this package: an optional content. -/
structure ChatMessage where
  content : Option ChatMessageContent
deriving DecidableEq, Repr

/-- schemas.ChatNonStreamResponseChoice: the final message of a choice. -/
structure ChatNonStreamResponseChoice where
  message : Option ChatMessage
deriving DecidableEq, Repr

/-- schemas.ChatStreamResponseDelta: the incremental delta content. -/
structure ChatStreamResponseDelta where
  content : Option String
deriving DecidableEq, Repr

/-- schemas.ChatStreamResponseChoice: the delta of a streaming choice. -/
structure ChatStreamResponseChoice where
  delta : Option ChatStreamResponseDelta
deriving DecidableEq, Repr

/-- schemas.TextCompletionResponseChoice: the single Text field. -/
structure TextCompletionResponseChoice where
  text : Option String
deriving DecidableEq, Repr

/-- schemas.BifrostResponseChoice: one response choice, carrying at most
one of the three payload variants; log-probabilities are carried verbatim
by this package, so they are modelled as an uninterpreted optional string. -/
structure BifrostResponseChoice where
  index : Nat
  finishReason : Option String
  logProbs : Option String
  chatNonStreamResponseChoice : Option ChatNonStreamResponseChoice
  chatStreamResponseChoice : Option ChatStreamResponseChoice
  textCompletionResponseChoice : Option TextCompletionResponseChoice
deriving DecidableEq, Repr

/-- schemas.BifrostLLMUsage as produced by this package. -/
structure BifrostLLMUsage where
  promptTokens : Nat
  totalTokens : Nat
deriving DecidableEq, Repr

/-- schemas.BifrostResponseExtraFields as accessed by this package; the
raw response is carried verbatim, so it is an uninterpreted optional string. -/
structure BifrostResponseExtraFields where
  provider : String
  modelRequested : String
  modelDeployment : String
  requestType : RequestType
  latency : Int
  rawResponse : Option String
deriving DecidableEq, Repr

/-- schemas.BifrostChatResponse as accessed by this package. -/
structure BifrostChatResponse where
  id : String
  object : String
  model : String
  systemFingerprint : Option String
  choices : List BifrostResponseChoice
  usage : Option BifrostLLMUsage
  extraFields : BifrostResponseExtraFields
deriving DecidableEq, Repr

/-- schemas.BifrostTextCompletionResponse as produced by this package. -/
structure BifrostTextCompletionResponse where
  id : String
  object : String
  model : String
  systemFingerprint : Option String
  choices : List BifrostResponseChoice
  usage : Option BifrostLLMUsage
  extraFields : BifrostResponseExtraFields
deriving DecidableEq, Repr

/-- The second switch case of the per-choice text extraction of
convertChatToTextResponse: the streaming delta content, else empty. -/
def choiceTextDelta (choice : BifrostResponseChoice) : String :=
  match choice.chatStreamResponseChoice with
  | some sc =>
    match sc.delta with
    | some d =>
      match d.content with
      | some s => s
      | none => ""
    | none => ""
  | none => ""

/-- The per-choice text extraction of convertChatToTextResponse
(huggingface.go): the switch over the nil-pointer chains, first the final
message content string, then the streaming delta content, else empty. -/
def choiceText (choice : BifrostResponseChoice) : String :=
  match choice.chatNonStreamResponseChoice with
  | some ns =>
    match ns.message with
    | some msg =>
      match msg.content with
      | some content =>
        match content.contentStr with
        | some s => s
        | none => choiceTextDelta choice
      | none => choiceTextDelta choice
    | none => choiceTextDelta choice
  | none => choiceTextDelta choice

/-- convertChatToTextResponse (huggingface.go): derives a text-completion
response from a chat response, copying id/model/system-fingerprint/usage,
mapping each choice to a text choice, and building fresh extra fields with
ModelRequested and ModelDeployment taken from the arguments. -/
def convertChatToTextResponse (chatResp : BifrostChatResponse) (requestedModel resolvedModel : String) : BifrostTextCompletionResponse :=
  { id := chatResp.id
    object := "text_completion"
    model := chatResp.model
    systemFingerprint := chatResp.systemFingerprint
    choices := chatResp.choices.map (fun choice =>
      { index := choice.index
        finishReason := choice.finishReason
        logProbs := choice.logProbs
        chatNonStreamResponseChoice := none
        chatStreamResponseChoice := none
        textCompletionResponseChoice := some { text := some (choiceText choice) } })
    usage := chatResp.usage
    extraFields :=
      { provider := chatResp.extraFields.provider
        modelRequested := requestedModel
        modelDeployment := resolvedModel
        requestType := RequestType.textCompletionRequest
        latency := chatResp.extraFields.latency
        rawResponse := chatResp.extraFields.rawResponse } }

/-- decorateResponseMetadata (huggingface.go): records the requested model
when non-empty, and the resolved model as deployment only when non-empty
and different from the requested model. Go mutates the extra fields in
place; modelled as a pure update. -/
def decorateResponseMetadata (extra : BifrostResponseExtraFields) (requestedModel resolvedModel : String) : BifrostResponseExtraFields :=
  let extra₁ := if requestedModel ≠ "" then { extra with modelRequested := requestedModel } else extra
  if resolvedModel ≠ "" ∧ resolvedModel ≠ requestedModel then
    { extra₁ with modelDeployment := resolvedModel }
  else extra₁

/-- A chat request message: the content the text-to-chat synthesis puts in
the single message (only the content is observable to this package). -/
structure ChatRequestMessage where
  content : String
deriving DecidableEq, Repr

/-- schemas.BifrostChatRequest as accessed by this package: model name,
messages, and sampling parameters carried verbatim (uninterpreted). -/
structure BifrostChatRequest where
  model : String
  messages : List ChatRequestMessage
  params : Option String
deriving DecidableEq, Repr

/-- schemas.BifrostTextCompletionRequest: model, prompt, sampling
parameters carried verbatim. -/
structure BifrostTextCompletionRequest where
  model : String
  prompt : String
  params : Option String
deriving DecidableEq, Repr

/-- Modelled from the spec: BifrostTextCompletionRequest.ToBifrostChatRequest
lives in the schemas package, which is not part of the sources here; the
spec states that the prompt becomes a single message, sampling parameters
are copied unchanged, and the model name is carried over. -/
def toBifrostChatRequest (textReq : BifrostTextCompletionRequest) : BifrostChatRequest :=
  { model := textReq.model
    messages := [{ content := textReq.prompt }]
    params := textReq.params }

/-- convertTextToChatRequest (huggingface.go): delegates to the schemas
conversion method. -/
def convertTextToChatRequest (textReq : BifrostTextCompletionRequest) : BifrostChatRequest :=
  toBifrostChatRequest textReq

/-- prepareChatRequest (huggingface.go): resolves the model alias and,
when it changed, clones the request with the resolved model; the second
component is the resolved model name. -/
def prepareChatRequest (request : BifrostChatRequest) (key : Key) : BifrostChatRequest × String :=
  let (resolvedModel, changed) := resolveModelAlias key request.model
  if changed then ({ request with model := resolvedModel }, resolvedModel)
  else (request, resolvedModel)

/-- schemas.EmbeddingInput: a single text or a list of texts. -/
structure EmbeddingInput where
  text : Option String
  texts : Option (List String)
deriving DecidableEq, Repr

/-- Modelled from the spec: the canonical embedding parameter record lives
in the schemas package, which is not part of the sources here; the spec
names optional normalize, prompt-name and truncate parameters. -/
structure EmbeddingParams where
  normalize : Option Bool
  promptName : Option String
  truncate : Option Bool
deriving DecidableEq, Repr

/-- schemas.BifrostEmbeddingRequest as accessed by this package. -/
structure BifrostEmbeddingRequest where
  model : String
  input : Option EmbeddingInput
  params : Option EmbeddingParams
deriving DecidableEq, Repr

/-- prepareEmbeddingRequest (huggingface.go): same shape as
prepareChatRequest, over embedding requests. -/
def prepareEmbeddingRequest (request : BifrostEmbeddingRequest) (key : Key) : BifrostEmbeddingRequest × String :=
  let (resolvedModel, changed) := resolveModelAlias key request.model
  if changed then ({ request with model := resolvedModel }, resolvedModel)
  else (request, resolvedModel)

/-- schemas.BifrostResponsesRequest as accessed by this package: model
name plus the rest of the payload carried verbatim (uninterpreted). -/
structure BifrostResponsesRequest where
  model : String
  payload : String
deriving DecidableEq, Repr

/-- The wire request the ChatCompletion operation (part_001) hands to
HandleOpenAIChatCompletionRequest: the prepared (alias-resolved) request. -/
def chatCompletionWireRequest (key : Key) (request : BifrostChatRequest) : BifrostChatRequest :=
  (prepareChatRequest request key).1

/-- The wire request the TextCompletion and TextCompletionStream
operations (text.go) hand to the chat-completion handler: the synthesized
chat request after alias resolution. -/
def textCompletionWireRequest (key : Key) (request : BifrostTextCompletionRequest) : BifrostChatRequest :=
  (prepareChatRequest (convertTextToChatRequest request) key).1

/-- The model name the Embedding operation (the embedding source file)
places in the feature-extraction URL path: the resolved model from
prepareEmbeddingRequest. -/
def embeddingWireURLModel (key : Key) (request : BifrostEmbeddingRequest) : String :=
  (prepareEmbeddingRequest request key).2

/-- The Responses operation (responses.go) resolves the alias through a
throwaway embedding request and keeps the resolved name for metadata
decoration, but hands the ORIGINAL request to
HandleOpenAIResponsesRequest. The first component is the wire request as
passed to the handler; the second is the resolved model name used for
decoration. -/
def responsesUpstreamCall (key : Key) (request : BifrostResponsesRequest) : BifrostResponsesRequest × String :=
  let effectiveRequest := (prepareEmbeddingRequest { model := request.model, input := none, params := none } key).1
  (request, effectiveRequest.model)

/-- schemas.BifrostStream as accessed by the text relay: an envelope
carrying at most a chat response or a text-completion response. -/
structure BifrostStream where
  bifrostChatResponse : Option BifrostChatResponse
  bifrostTextCompletionResponse : Option BifrostTextCompletionResponse
deriving DecidableEq, Repr

/-- The per-message translation of the TextCompletionStream relay
(text.go): convert the chat payload, overwrite the request kind to the
text-completion-stream kind, then decorate metadata. -/
def relayTranslate (requestedModel resolvedModel : String) (chatResp : BifrostChatResponse) : BifrostTextCompletionResponse :=
  let textResp := convertChatToTextResponse chatResp requestedModel resolvedModel
  let ef := { textResp.extraFields with requestType := RequestType.textCompletionStreamRequest }
  { textResp with extraFields := decorateResponseMetadata ef requestedModel resolvedModel }

/-- One loop-body step of the TextCompletionStream relay goroutine on a
non-nil message: replace a chat payload by its translation, forward
anything else unchanged. -/
def relayStep (requestedModel resolvedModel : String) (streamMsg : BifrostStream) : BifrostStream :=
  match streamMsg.bifrostChatResponse with
  | some chatResp =>
    { streamMsg with
        bifrostTextCompletionResponse := some (relayTranslate requestedModel resolvedModel chatResp)
        bifrostChatResponse := none }
  | none => streamMsg

/-- The TextCompletionStream relay loop (text.go): the upstream channel is
a list of Go pointers (none is a nil message, which the loop skips with
continue); the output channel is the produced list, closed exactly once
when the loop ends. -/
def textCompletionStreamRelay (requestedModel resolvedModel : String) : List (Option BifrostStream) → List BifrostStream
  | [] => []
  | none :: rest => textCompletionStreamRelay requestedModel resolvedModel rest
  | some streamMsg :: rest =>
    relayStep requestedModel resolvedModel streamMsg :: textCompletionStreamRelay requestedModel resolvedModel rest

/-- The Inputs field of the Hugging Face feature-extraction wire request:
a Go interface value holding either a string or a list of strings. -/
inductive HFInputs where
  | str : String → HFInputs
  | list : List String → HFInputs
deriving DecidableEq, Repr

/-- huggingFaceEmbeddingRequest (text.go): the wire shape of the
feature-extraction request. -/
structure HuggingFaceEmbeddingRequest where
  inputs : Option HFInputs
  normalize : Option Bool
  promptName : Option String
  truncate : Option Bool
  truncDirection : Option String
deriving DecidableEq, Repr

/-- convertToHuggingFaceEmbeddingRequest (embedding source file): maps the
canonical input to the generic inputs field, preserving the string versus
list shape; the parameters block of the Go function is an empty branch (a
comment only), so no parameter is ever forwarded. -/
def convertToHuggingFaceEmbeddingRequest (request : BifrostEmbeddingRequest) : HuggingFaceEmbeddingRequest :=
  let inputs : Option HFInputs :=
    match request.input with
    | none => none
    | some input =>
      match input.text with
      | some t => some (HFInputs.str t)
      | none =>
        match input.texts with
        | some ts => some (HFInputs.list ts)
        | none => none
  { inputs := inputs
    normalize := none
    promptName := none
    truncate := none
    truncDirection := none }

/-- schemas.EmbeddingData as produced by this package: one entry per
upstream vector, index-ordered. -/
structure EmbeddingData where
  object : String
  index : Nat
  embeddingArray : List Float
deriving Repr

/-- schemas.BifrostEmbeddingResponse as produced by this package. -/
structure BifrostEmbeddingResponse where
  object : String
  data : List EmbeddingData
  model : String
  usage : Option BifrostLLMUsage
deriving Repr

/-- estimateTokens (embedding source file): a rough local token estimate;
a single text contributes length / 4, a list contributes the SUM of the
per-text length / 4 values, and a zero count is floored to 1 (a nil input
returns 0 before the floor applies). -/
def estimateTokens (request : BifrostEmbeddingRequest) : Nat :=
  match request.input with
  | none => 0
  | some input =>
    let count :=
      match input.text with
      | some t => t.length / 4
      | none =>
        match input.texts with
        | some ts => ts.foldl (fun acc t => acc + t.length / 4) 0
        | none => 0
    if count = 0 then 1 else count

/-- convertFromHuggingFaceEmbeddingResponse (embedding source file): a nil
or empty upstream vector array yields the empty response with no usage at
all; otherwise one EmbeddingData per vector plus the locally estimated
usage assigned to both prompt and total token counts. -/
def convertFromHuggingFaceEmbeddingResponse (hfResponse : Option (List (List Float))) (request : BifrostEmbeddingRequest) : BifrostEmbeddingResponse :=
  let response : BifrostEmbeddingResponse := { object := "list", data := [], model := "", usage := none }
  match hfResponse with
  | none => response
  | some embeddings =>
    if embeddings.length = 0 then response
    else
      let data := embeddings.enum.map (fun p =>
        { object := "embedding", index := p.1, embeddingArray := p.2 })
      let totalTokens := estimateTokens request
      { response with
          data := data
          usage := some { promptTokens := totalTokens, totalTokens := totalTokens } }

/-- huggingFaceErrorResponse (text.go): the decoded upstream error body
shape with error and message string fields (a missing field decodes to
the empty string). -/
structure HuggingFaceErrorResponse where
  error : String
  message : String
deriving DecidableEq, Repr

/-- The message selection of handleModelHubError (models.go): the trimmed
message field when non-empty, else the trimmed error field, else a
fallback embedding the raw body. -/
def handleModelHubErrorMessage (apiError : HuggingFaceErrorResponse) (rawBody : String) : String :=
  let message := trimSpace apiError.message
  let message := if message = "" then trimSpace apiError.error else message
  if message = "" then "unexpected Hugging Face response: " ++ rawBody else message

/-- The message selection of parseHuggingFaceEmbeddingError (embedding
source file): when either field is non-empty it picks the error field
first and falls back to the message field; otherwise the message from the
generic handler (outside these sources) is kept. -/
def parseHuggingFaceEmbeddingErrorMessage (errorResp : HuggingFaceErrorResponse) (handlerMessage : String) : String :=
  if errorResp.error ≠ "" ∨ errorResp.message ≠ "" then
    if errorResp.error = "" then errorResp.message else errorResp.error
  else handlerMessage

/-- The set of supported request methods a catalog entry derives. The Go
code builds a set of schemas.RequestType values and finally renders them
as a sorted string list; the rendering strings live in the schemas
package, so the set itself is modelled (chat, text-completion, responses,
embedding membership flags). -/
structure MethodSet where
  chatCompletion : Bool
  textCompletion : Bool
  responses : Bool
  embedding : Bool
deriving DecidableEq, Repr

/-- The empty method set. -/
def MethodSet.empty : MethodSet :=
  { chatCompletion := false, textCompletion := false, responses := false, embedding := false }

/-- Set union of method sets (the addMethods accumulation). -/
def MethodSet.union (a b : MethodSet) : MethodSet :=
  { chatCompletion := a.chatCompletion || b.chatCompletion
    textCompletion := a.textCompletion || b.textCompletion
    responses := a.responses || b.responses
    embedding := a.embedding || b.embedding }

/-- The chat-capability triple added for text-generation-like values. -/
def chatMethods : MethodSet :=
  { chatCompletion := true, textCompletion := true, responses := true, embedding := false }

/-- The embedding capability added for embedding-like values. -/
def embeddingMethods : MethodSet :=
  { chatCompletion := false, textCompletion := false, responses := false, embedding := true }

/-- The pipeline-tag switch cases of deriveSupportedMethods that imply the
chat triple (five values, including text2text-generation). -/
def pipelineIsChatLike (s : String) : Bool :=
  s = "text-generation" || s = "text2text-generation" || s = "summarization" ||
  s = "conversational" || s = "chat-completion"

/-- The switch cases (shared by pipeline tag and tags) that imply the
embedding capability. -/
def valueIsEmbeddingLike (s : String) : Bool :=
  s = "text-embedding" || s = "sentence-similarity" || s = "feature-extraction" ||
  s = "embeddings"

/-- The tag-loop switch cases of deriveSupportedMethods that imply the
chat triple: only four values, WITHOUT text2text-generation. -/
def tagIsChatLike (s : String) : Bool :=
  s = "text-generation" || s = "summarization" || s = "conversational" ||
  s = "chat-completion"

/-- The tag-loop body of deriveSupportedMethods: the embedding case is
checked first, then the chat case. -/
def tagStep (acc : MethodSet) (tag : String) : MethodSet :=
  let l := strToLower tag
  if valueIsEmbeddingLike l then acc.union embeddingMethods
  else if tagIsChatLike l then acc.union chatMethods
  else acc

/-- deriveSupportedMethods (text.go): normalizes the pipeline tag
(lower-cased and trimmed), applies the pipeline switch, then folds the
tag switch over all free-form tags (lower-cased only). -/
def deriveSupportedMethods (pipeline : String) (tags : List String) : MethodSet :=
  let normalized := trimSpace (strToLower pipeline)
  let fromPipeline :=
    if pipelineIsChatLike normalized then chatMethods
    else if valueIsEmbeddingLike normalized then embeddingMethods
    else MethodSet.empty
  tags.foldl tagStep fromPipeline

/-- huggingFaceModelCardData (text.go): the description-like fields. -/
structure HuggingFaceModelCardData where
  modelName : String
  shortDescription : String
  description : String
  summary : String
deriving DecidableEq, Repr

/-- huggingFaceModelHubEntry (text.go): one raw catalog entry (the Go
field named Private is renamed here because private is reserved). -/
structure HuggingFaceModelHubEntry where
  id : String
  modelID : String
  author : String
  pipelineTag : String
  tags : List String
  privateFlag : Bool
  gated : Bool
  cardData : HuggingFaceModelCardData
deriving DecidableEq, Repr

/-- schemas.Model as built by convertHubEntriesToModels. -/
structure Model where
  id : String
  canonicalSlug : Option String
  name : Option String
  deployment : Option String
  supportedMethods : MethodSet
  huggingFaceID : Option String
  ownedBy : Option String
  description : Option String
  architectureModality : Option String
deriving DecidableEq, Repr

/-- The model hub base URL constant (huggingface.go). -/
def modelHubBaseURL : String := "https://huggingface.co"

/-- The per-entry body of convertHubEntriesToModels (text.go): none when
the entry is dropped (empty upstream model id, or empty derived capability
set), else the built model with the description precedence description,
then short description, then summary. -/
def convertHubEntry (providerName : String) (entry : HuggingFaceModelHubEntry) : Option Model :=
  if entry.modelID = "" then none
  else
    let supported := deriveSupportedMethods entry.pipelineTag entry.tags
    if supported = MethodSet.empty then none
    else
      let identifier := providerName ++ "/" ++ entry.modelID
      let canonical := modelHubBaseURL ++ "/" ++ entry.modelID
      let description :=
        if entry.cardData.description ≠ "" then entry.cardData.description
        else if entry.cardData.shortDescription ≠ "" then entry.cardData.shortDescription
        else entry.cardData.summary
      let name := if entry.cardData.modelName ≠ "" then entry.cardData.modelName else entry.modelID
      some
        { id := identifier
          canonicalSlug := some canonical
          name := some name
          deployment := some entry.modelID
          supportedMethods := supported
          huggingFaceID := some entry.modelID
          ownedBy := if entry.author ≠ "" then some entry.author else none
          description := if description ≠ "" then some description else none
          architectureModality := if entry.pipelineTag ≠ "" then some entry.pipelineTag else none }

/-- Insertion of a model into a list sorted ascending by id. -/
def insertModelByID (m : Model) : List Model → List Model
  | [] => [m]
  | x :: xs => if m.id ≤ x.id then m :: x :: xs else x :: insertModelByID m xs

/-- The final sort of convertHubEntriesToModels: ascending by stable id. -/
def sortModelsByID (models : List Model) : List Model :=
  models.foldr insertModelByID []

/-- convertHubEntriesToModels (text.go): keeps the convertible entries in
order and sorts the result ascending by stable id. -/
def convertHubEntriesToModels (entries : List HuggingFaceModelHubEntry) (providerName : String) : List Model :=
  sortModelsByID (entries.filterMap (convertHubEntry providerName))

/-- The non-streaming TextCompletion operation (text.go) viewed from the
upstream chat response to the returned text response: the chat request is
synthesized, the alias resolved on it, and the conversion applied with
the ORIGINAL requested model and the resolved model; no further
decoration happens on this path. -/
def textCompletionResponseFromChat (key : Key) (request : BifrostTextCompletionRequest) (chatResponse : BifrostChatResponse) : BifrostTextCompletionResponse :=
  let chatRequest := convertTextToChatRequest request
  let resolvedModel := (prepareChatRequest chatRequest key).2
  convertChatToTextResponse chatResponse request.model resolvedModel

/-- Spec-side accessor: the final message content string of a choice, when
every link of the optional chain is present. -/
def finalMessageContent (choice : BifrostResponseChoice) : Option String :=
  ((choice.chatNonStreamResponseChoice.bind ChatNonStreamResponseChoice.message).bind
    ChatMessage.content).bind ChatMessageContent.contentStr

/-- Spec-side accessor: the incremental delta content string of a choice,
when every link of the optional chain is present. -/
def deltaContent (choice : BifrostResponseChoice) : Option String :=
  (choice.chatStreamResponseChoice.bind ChatStreamResponseChoice.delta).bind
    ChatStreamResponseDelta.content

/-- Spec-side accessor: the alias-map entry a key holds for a requested
model (none when the key has no alias map or the map has no entry). -/
def aliasEntry (key : Key) (requestedModel : String) : Option String :=
  match key.huggingFaceKeyConfig with
  | none => none
  | some cfg => lookupDeployment cfg.deployments requestedModel

/-- A key with no Hugging Face config at all. -/
def keyPlain : Key := { value := "k", huggingFaceKeyConfig := none }

/-- A key whose alias map sends a to b (the spec's alias-override example). -/
def keyAliasAB : Key :=
  { value := "k", huggingFaceKeyConfig := some { deployments := [("a", "b")] } }

/-- A key whose alias map sends a to the empty string. -/
def keyAliasAEmpty : Key :=
  { value := "k", huggingFaceKeyConfig := some { deployments := [("a", "")] } }

/-- A key whose alias map sends m to d. -/
def keyAliasMD : Key :=
  { value := "k", huggingFaceKeyConfig := some { deployments := [("m", "d")] } }

/-- Neutral extra fields used in example responses. -/
def extraFieldsEx : BifrostResponseExtraFields :=
  { provider := "huggingface"
    modelRequested := ""
    modelDeployment := ""
    requestType := RequestType.chatCompletionRequest
    latency := 0
    rawResponse := none }

/-- A chat response whose first choice carries final message content
"Hi there" (the spec's text round-trip example). -/
def chatRespHiThere : BifrostChatResponse :=
  { id := "r1"
    object := "chat.completion"
    model := "m"
    systemFingerprint := none
    choices :=
      [{ index := 0
         finishReason := some "stop"
         logProbs := none
         chatNonStreamResponseChoice :=
           some { message := some { content := some { contentStr := some "Hi there" } } }
         chatStreamResponseChoice := none
         textCompletionResponseChoice := none }]
    usage := some { promptTokens := 1, totalTokens := 2 }
    extraFields := extraFieldsEx }

/-- A text-completion request with prompt Hello and model m. -/
def textReqHello : BifrostTextCompletionRequest :=
  { model := "m", prompt := "Hello", params := none }

/-- A stream envelope with no payload at all (a control message). -/
def controlStreamMsg : BifrostStream :=
  { bifrostChatResponse := none, bifrostTextCompletionResponse := none }

/-- An embedding request whose single text is abcdefgh (8 characters). -/
def embReq8 : BifrostEmbeddingRequest :=
  { model := "m", input := some { text := some "abcdefgh", texts := none }, params := none }

/-- An embedding request with three texts of three characters each
(nine characters in total). -/
def embReq3x3 : BifrostEmbeddingRequest :=
  { model := "m", input := some { text := none, texts := some ["abc", "abc", "abc"] }, params := none }

/-- An embedding request carrying every optional parameter. -/
def embReqWithParams : BifrostEmbeddingRequest :=
  { model := "m"
    input := some { text := some "a", texts := none }
    params := some { normalize := some true, promptName := some "q", truncate := some true } }

/-- A raw catalog entry with empty card data, an unrecognized pipeline
tag, and the free-form tag text2text-generation. -/
def entryT2TTag : HuggingFaceModelHubEntry :=
  { id := "t2t"
    modelID := "t2t"
    author := "a"
    pipelineTag := "robotics"
    tags := ["text2text-generation"]
    privateFlag := false
    gated := false
    cardData := { modelName := "", shortDescription := "", description := "", summary := "" } }

/-! ## Helper lemmas -/

theorem choiceTextDelta_eq_getD (c : BifrostResponseChoice) :
    choiceTextDelta c = (deltaContent c).getD "" := by
  obtain ⟨i, fr, lp, ns, ss, tc⟩ := c
  cases ss with
  | none => rfl
  | some sv =>
    obtain ⟨d⟩ := sv
    cases d with
    | none => rfl
    | some dv =>
      obtain ⟨dc⟩ := dv
      cases dc with
      | none => rfl
      | some s => rfl

theorem choiceText_eq_getD (c : BifrostResponseChoice) :
    choiceText c = (finalMessageContent c).getD ((deltaContent c).getD "") := by
  have hd := choiceTextDelta_eq_getD c
  obtain ⟨i, fr, lp, ns, ss, tc⟩ := c
  cases ns with
  | none => simpa [choiceText, finalMessageContent] using hd
  | some nsv =>
    obtain ⟨msg⟩ := nsv
    cases msg with
    | none => simpa [choiceText, finalMessageContent] using hd
    | some msgv =>
      obtain ⟨ct⟩ := msgv
      cases ct with
      | none => simpa [choiceText, finalMessageContent] using hd
      | some ctv =>
        obtain ⟨cs⟩ := ctv
        cases cs with
        | none => simpa [choiceText, finalMessageContent] using hd
        | some s => rfl

theorem decorateResponseMetadata_requestType (extra : BifrostResponseExtraFields)
    (rq rv : String) :
    (decorateResponseMetadata extra rq rv).requestType = extra.requestType := by
  unfold decorateResponseMetadata
  split <;> split <;> rfl

/-! ## Claims -/

/-- C3: for every key and requested model m, resolve returns (m, false)
when the key carries no alias map, the map has no entry for m, or the
mapped value is empty or whitespace; otherwise it returns the mapped
value together with the flag (mapped value different from m). -/
theorem resolveModelAlias_spec (key : Key) (m : String) :
    (∀ v, aliasEntry key m = some v → trimSpace v ≠ "" →
        resolveModelAlias key m = (v, v != m))
    ∧ ((aliasEntry key m = none ∨ ∃ v, aliasEntry key m = some v ∧ trimSpace v = "") →
        resolveModelAlias key m = (m, false)) := by
  obtain ⟨kv, kc⟩ := key
  cases kc with
  | none =>
    exact ⟨fun v h => by simp [aliasEntry] at h, fun _ => rfl⟩
  | some cfg =>
    obtain ⟨deps⟩ := cfg
    cases deps with
    | nil =>
      refine ⟨fun v h _ => ?_, fun _ => rfl⟩
      simp [aliasEntry, lookupDeployment] at h
    | cons p rest =>
      constructor
      · intro v h htrim
        have hl : lookupDeployment (p :: rest) m = some v := by
          simpa [aliasEntry] using h
        simp [resolveModelAlias, hl, htrim]
      · intro h
        rcases h with h | ⟨v, hv, htrim⟩
        · have hl : lookupDeployment (p :: rest) m = none := by
            simpa [aliasEntry] using h
          simp [resolveModelAlias, hl]
        · have hl : lookupDeployment (p :: rest) m = some v := by
            simpa [aliasEntry] using hv
          simp [resolveModelAlias, hl, htrim]

/-- Witness for C3: the spec's alias-override examples evaluated through
the theorem: map sending a to b resolves a to (b, true); map sending a to
the empty string resolves a to (a, false). -/
theorem resolveModelAlias_spec_witness :
    resolveModelAlias keyAliasAB "a" = ("b", true)
    ∧ resolveModelAlias keyAliasAEmpty "a" = ("a", false) := by
  constructor
  · exact ((resolveModelAlias_spec keyAliasAB "a").1 "b" (by decide) (by decide)).trans (by decide)
  · exact (resolveModelAlias_spec keyAliasAEmpty "a").2 (Or.inr ⟨"", by decide, by decide⟩)

/-- C10: an upstream feature-extraction response decoding to an empty (or
absent) array of vectors yields a canonical response with an empty data
list and no usage record at all; the local token estimate is not applied. -/
theorem embedding_empty_response_no_usage (request : BifrostEmbeddingRequest) :
    (convertFromHuggingFaceEmbeddingResponse (some []) request).data = []
    ∧ (convertFromHuggingFaceEmbeddingResponse (some []) request).usage = none
    ∧ (convertFromHuggingFaceEmbeddingResponse none request).data = []
    ∧ (convertFromHuggingFaceEmbeddingResponse none request).usage = none :=
  ⟨rfl, rfl, rfl, rfl⟩

/-- C1 as stated is false: the relay loop skips a nil upstream message
with continue instead of forwarding it, so an upstream stream of one nil
message yields zero output messages, not one. -/
theorem relay_nil_dropped_counterexample :
    textCompletionStreamRelay "m" "m" [none] = []
    ∧ ([(none : Option BifrostStream)]).length = 1 :=
  ⟨rfl, rfl⟩

/-- C1 amended: the relay emits, in upstream order, exactly one output
message per NON-nil upstream message and then closes (nil messages are
dropped); a non-nil message without a chat payload is forwarded
unchanged, and a message with a chat payload is replaced by its
text-completion translation, whose request kind is the
text-completion-stream kind. -/
theorem relay_order_closure_amended (requestedModel resolvedModel : String)
    (upstream : List (Option BifrostStream)) :
    textCompletionStreamRelay requestedModel resolvedModel upstream
      = (upstream.filterMap id).map (relayStep requestedModel resolvedModel)
    ∧ (∀ t, relayStep requestedModel resolvedModel
          { bifrostChatResponse := none, bifrostTextCompletionResponse := t }
        = { bifrostChatResponse := none, bifrostTextCompletionResponse := t })
    ∧ (∀ c t, relayStep requestedModel resolvedModel
          { bifrostChatResponse := some c, bifrostTextCompletionResponse := t }
        = { bifrostChatResponse := none
            bifrostTextCompletionResponse :=
              some (relayTranslate requestedModel resolvedModel c) })
    ∧ (∀ c, (relayTranslate requestedModel resolvedModel c).extraFields.requestType
        = RequestType.textCompletionStreamRequest) := by
  refine ⟨?_, fun t => rfl, fun c t => rfl, fun c => ?_⟩
  · induction upstream with
    | nil => rfl
    | cons head rest ih =>
      cases head with
      | none =>
        simpa [textCompletionStreamRelay, List.filterMap_cons] using ih
      | some streamMsg =>
        simp [textCompletionStreamRelay, List.filterMap_cons, ih]
  · simpa [relayTranslate] using
      decorateResponseMetadata_requestType
        { (convertChatToTextResponse c requestedModel resolvedModel).extraFields with
            requestType := RequestType.textCompletionStreamRequest }
        requestedModel resolvedModel

/-- C4: the derived text-completion response copies id, model,
system-fingerprint and usage, and has one choice per chat choice
preserving index, finish-reason and log-probabilities, whose single Text
field is the final message content if present, else the latest delta
content if present, else empty; a chat response with first-choice message
content Hi there derives first-choice text Hi there, and a
text-completion request with prompt Hello synthesizes a chat request
whose single message content is Hello. -/
theorem convertChatToTextResponse_spec (chatResp : BifrostChatResponse) (rq rv : String) :
    (convertChatToTextResponse chatResp rq rv).id = chatResp.id
    ∧ (convertChatToTextResponse chatResp rq rv).model = chatResp.model
    ∧ (convertChatToTextResponse chatResp rq rv).systemFingerprint = chatResp.systemFingerprint
    ∧ (convertChatToTextResponse chatResp rq rv).usage = chatResp.usage
    ∧ (convertChatToTextResponse chatResp rq rv).choices
        = chatResp.choices.map (fun choice =>
            { index := choice.index
              finishReason := choice.finishReason
              logProbs := choice.logProbs
              chatNonStreamResponseChoice := none
              chatStreamResponseChoice := none
              textCompletionResponseChoice :=
                some { text := some ((finalMessageContent choice).getD
                        ((deltaContent choice).getD "")) } })
    ∧ (toBifrostChatRequest textReqHello).messages = [{ content := "Hello" }]
    ∧ ((convertChatToTextResponse chatRespHiThere "m" "m").choices.head?.bind
        (fun c => c.textCompletionResponseChoice.bind TextCompletionResponseChoice.text))
        = some "Hi there" := by
  refine ⟨rfl, rfl, rfl, rfl, ?_, rfl, rfl⟩
  simp [convertChatToTextResponse, choiceText_eq_getD]

/-- C2: the claim holds for the chat, text-completion and embedding
kinds, whose wire requests carry the alias-resolved model, but the code
contradicts it for the responses kind: the Responses operation resolves
the alias (m to d) and records d for metadata, yet hands the transport
the original request still carrying m. -/
theorem responses_wire_request_ignores_alias :
    resolveModelAlias keyAliasMD "m" = ("d", true)
    ∧ (responsesUpstreamCall keyAliasMD { model := "m", payload := "p" }).1.model = "m"
    ∧ (responsesUpstreamCall keyAliasMD { model := "m", payload := "p" }).2 = "d"
    ∧ (chatCompletionWireRequest keyAliasMD
        { model := "m", messages := [], params := none }).model = "d"
    ∧ (textCompletionWireRequest keyAliasMD
        { model := "m", prompt := "p", params := none }).model = "d"
    ∧ embeddingWireURLModel keyAliasMD { model := "m", input := none, params := none } = "d" := by
  refine ⟨?_, rfl, ?_, ?_, ?_, ?_⟩ <;> decide

/-- C5 as stated is false: on the non-streaming text-completion path the
resolved model equals the requested model (no alias on the key), yet the
response's deployment field carries that very model name instead of
being empty. -/
theorem deployment_field_counterexample :
    (prepareChatRequest (convertTextToChatRequest textReqHello) keyPlain).2 = "m"
    ∧ (textCompletionResponseFromChat keyPlain textReqHello chatRespHiThere).extraFields.modelRequested = "m"
    ∧ (textCompletionResponseFromChat keyPlain textReqHello chatRespHiThere).extraFields.modelDeployment = "m"
    ∧ (textCompletionResponseFromChat keyPlain textReqHello chatRespHiThere).extraFields.modelDeployment ≠ "" := by
  refine ⟨rfl, rfl, rfl, ?_⟩ ; decide

/-- C5 amended: metadata decoration via decorateResponseMetadata never
touches the deployment field when the resolved model equals the requested
model, but a text-completion response derived from a chat response
records the resolved model in the deployment field unconditionally, even
when it equals the requested model. -/
theorem deployment_field_amended (extra : BifrostResponseExtraFields) (rq rv : String)
    (c : BifrostChatResponse) :
    (decorateResponseMetadata extra rq rq).modelDeployment = extra.modelDeployment
    ∧ (convertChatToTextResponse c rq rv).extraFields.modelDeployment = rv := by
  constructor
  · unfold decorateResponseMetadata
    simp only [ne_eq, not_true_eq_false, and_false, if_false]
    split <;> rfl
  · rfl

/-- C7 as stated is false: the local token estimate floors each input's
character count divided by four separately and sums, so three inputs of
three characters each (nine characters total) estimate 1, while
max(1, totalCharacters / 4) = max(1, 9 / 4) = 2. -/
theorem token_estimate_counterexample :
    estimateTokens embReq3x3 = 1
    ∧ max 1 ((["abc", "abc", "abc"].foldl (fun acc t => acc + t.length) 0) / 4) = 2
    ∧ (convertFromHuggingFaceEmbeddingResponse
        (some [[(0 : Float)], [0], [0]]) embReq3x3).usage
        = some { promptTokens := 1, totalTokens := 1 } := by
  refine ⟨by decide, by decide, rfl⟩

/-- C7 amended: for a non-empty upstream vector array the canonical usage
is the local estimate assigned to both prompt and total token counts,
where the estimate is max(1, length / 4) for a single text and
max(1, sum over the texts of (length / 4)) for a list of texts — the
division is applied per input before summing, not to the total; the
single input abcdefgh still estimates 2. -/
theorem token_estimate_amended (m : String) (p : Option EmbeddingParams) :
    (∀ (request : BifrostEmbeddingRequest) (v : List Float) (vs : List (List Float)),
        (convertFromHuggingFaceEmbeddingResponse (some (v :: vs)) request).usage
          = some { promptTokens := estimateTokens request
                   totalTokens := estimateTokens request })
    ∧ (∀ (t : String) (ots : Option (List String)),
        estimateTokens { model := m, input := some { text := some t, texts := ots }, params := p }
          = max 1 (t.length / 4))
    ∧ (∀ ts : List String,
        estimateTokens { model := m, input := some { text := none, texts := some ts }, params := p }
          = max 1 (ts.foldl (fun acc t => acc + t.length / 4) 0))
    ∧ estimateTokens embReq8 = 2 := by
  refine ⟨fun request v vs => rfl, fun t ots => ?_, fun ts => ?_, by decide⟩
  · show (if t.length / 4 = 0 then 1 else t.length / 4) = max 1 (t.length / 4)
    split <;> omega
  · show (if ts.foldl (fun acc t => acc + t.length / 4) 0 = 0 then 1
          else ts.foldl (fun acc t => acc + t.length / 4) 0)
        = max 1 (ts.foldl (fun acc t => acc + t.length / 4) 0)
    split <;> omega

/-- C8 as stated is false: the model-hub error site prefers the message
field, but the embedding error site prefers the error field when both
are non-empty. -/
theorem error_preference_counterexample :
    parseHuggingFaceEmbeddingErrorMessage { error := "e", message := "m" } "fallback" = "e"
    ∧ handleModelHubErrorMessage { error := "e", message := "m" } "body" = "m"
    ∧ ("e" : String) ≠ "m" := by
  refine ⟨rfl, by decide, by decide⟩

/-- C8 amended: each site uses whichever field is non-empty, but the
preference when both are non-empty differs per site: the model-hub site
prefers the (trimmed) message field, while the embedding site prefers
the error field. -/
theorem error_preference_amended (er : HuggingFaceErrorResponse)
    (rawBody handlerMessage : String) :
    (trimSpace er.message ≠ "" →
        handleModelHubErrorMessage er rawBody = trimSpace er.message)
    ∧ (trimSpace er.message = "" → trimSpace er.error ≠ "" →
        handleModelHubErrorMessage er rawBody = trimSpace er.error)
    ∧ (er.error ≠ "" →
        parseHuggingFaceEmbeddingErrorMessage er handlerMessage = er.error)
    ∧ (er.error = "" → er.message ≠ "" →
        parseHuggingFaceEmbeddingErrorMessage er handlerMessage = er.message)
    ∧ (er.error = "" → er.message = "" →
        parseHuggingFaceEmbeddingErrorMessage er handlerMessage = handlerMessage) := by
  refine ⟨fun h => ?_, fun h h' => ?_, fun h => ?_, fun h h' => ?_, fun h h' => ?_⟩
  · simp [handleModelHubErrorMessage, h]
  · simp [handleModelHubErrorMessage, h, h']
  · simp [parseHuggingFaceEmbeddingErrorMessage, h]
  · simp [parseHuggingFaceEmbeddingErrorMessage, h, h']
  · simp [parseHuggingFaceEmbeddingErrorMessage, h, h']

/-- Witness for C8 amended: both fields non-empty, evaluated through the
theorem at the two sites. -/
theorem error_preference_amended_witness :
    handleModelHubErrorMessage { error := "e", message := "m" } "b" = "m"
    ∧ parseHuggingFaceEmbeddingErrorMessage { error := "e", message := "m" } "f" = "e" := by
  have h := error_preference_amended { error := "e", message := "m" } "b" "f"
  exact ⟨(h.1 (by decide)).trans (by decide), h.2.2.1 (by decide)⟩

/-- C9 as stated is false: the optional normalize, prompt-name and
truncate parameters are present on the request yet the wire request does
not carry them. -/
theorem embedding_params_counterexample :
    embReqWithParams.params
        = some { normalize := some true, promptName := some "q", truncate := some true }
    ∧ (convertToHuggingFaceEmbeddingRequest embReqWithParams).normalize = none
    ∧ (convertToHuggingFaceEmbeddingRequest embReqWithParams).promptName = none
    ∧ (convertToHuggingFaceEmbeddingRequest embReqWithParams).truncate = none := by
  exact ⟨rfl, rfl, rfl, rfl⟩

/-- C9 amended: the translation preserves the string-versus-list shape of
the input (a single string maps to a string inputs value, a list to a
list value), but the optional normalize, prompt-name and truncate
parameters are never forwarded: the wire request always omits them. -/
theorem embedding_request_shape_amended (request : BifrostEmbeddingRequest) :
    (∀ i t, request.input = some i → i.text = some t →
        (convertToHuggingFaceEmbeddingRequest request).inputs = some (HFInputs.str t))
    ∧ (∀ i ts, request.input = some i → i.text = none → i.texts = some ts →
        (convertToHuggingFaceEmbeddingRequest request).inputs = some (HFInputs.list ts))
    ∧ (convertToHuggingFaceEmbeddingRequest request).normalize = none
    ∧ (convertToHuggingFaceEmbeddingRequest request).promptName = none
    ∧ (convertToHuggingFaceEmbeddingRequest request).truncate = none := by
  refine ⟨?_, ?_, rfl, rfl, rfl⟩
  · intro i t hi ht
    simp [convertToHuggingFaceEmbeddingRequest, hi, ht]
  · intro i ts hi ht hts
    simp [convertToHuggingFaceEmbeddingRequest, hi, ht, hts]

/-- Witness for C9 amended: the single-string request with every optional
parameter set, pushed through the theorem. -/
theorem embedding_request_shape_witness :
    (convertToHuggingFaceEmbeddingRequest embReqWithParams).inputs = some (HFInputs.str "a") :=
  (embedding_request_shape_amended embReqWithParams).1
    { text := some "a", texts := none } "a" rfl rfl

theorem embLike_not_tagChatLike (s : String) (h : valueIsEmbeddingLike s = true) :
    tagIsChatLike s = false := by
  unfold valueIsEmbeddingLike at h
  simp only [Bool.or_eq_true, decide_eq_true_eq] at h
  rcases h with ((h | h) | h) | h <;> subst h <;> decide

theorem chatLike_not_embLike (s : String) (h : pipelineIsChatLike s = true) :
    valueIsEmbeddingLike s = false := by
  unfold pipelineIsChatLike at h
  simp only [Bool.or_eq_true, decide_eq_true_eq] at h
  rcases h with (((h | h) | h) | h) | h <;> subst h <;> decide

theorem tagsFold_union_spec (tags : List String) (acc : MethodSet) :
    tags.foldl tagStep acc = acc.union
      { chatCompletion := tags.any (fun t => tagIsChatLike (strToLower t))
        textCompletion := tags.any (fun t => tagIsChatLike (strToLower t))
        responses := tags.any (fun t => tagIsChatLike (strToLower t))
        embedding := tags.any (fun t => valueIsEmbeddingLike (strToLower t)) } := by
  induction tags generalizing acc with
  | nil =>
    obtain ⟨a, b, c, d⟩ := acc
    simp [MethodSet.union]
  | cons t ts ih =>
    rw [List.foldl_cons, ih]
    obtain ⟨a, b, c, d⟩ := acc
    by_cases he : valueIsEmbeddingLike (strToLower t)
    · have hc := embLike_not_tagChatLike _ he
      simp [tagStep, MethodSet.union, embeddingMethods, he, hc, List.any_cons,
        Bool.or_assoc, Bool.or_comm, Bool.or_left_comm]
    · by_cases hc : tagIsChatLike (strToLower t)
      · simp [tagStep, MethodSet.union, chatMethods, he, hc, List.any_cons,
          Bool.or_assoc, Bool.or_comm, Bool.or_left_comm]
      · simp [tagStep, MethodSet.union, he, hc, List.any_cons]

/-- C6 as stated is false: the free-form tag loop recognizes only four
chat-implying values and omits text2text-generation, so an entry whose
only recognized-looking value is the tag text2text-generation derives the
empty capability set and is dropped, while the claim requires the chat
capability triple; via the pipeline tag the same value does imply the
triple. -/
theorem text2text_tag_counterexample :
    deriveSupportedMethods "robotics" ["text2text-generation"] = MethodSet.empty
    ∧ deriveSupportedMethods "text2text-generation" [] = chatMethods
    ∧ convertHubEntriesToModels [entryT2TTag] "huggingface" = [] := by
  refine ⟨by decide, by decide, by decide⟩

/-- C6 amended: capabilities are derived from the lower-cased (and, for
the pipeline tag, trimmed) values; the pipeline tag implies the chat
triple for the five listed values, but a free-form tag implies it only
for the four values WITHOUT text2text-generation; the embedding values
imply the embedding capability from either position; chat,
text-completion and responses always come together; an entry is dropped
exactly when its upstream model id is empty or its derived capability
set is empty; a text-generation pipeline yields the chat triple. -/
theorem deriveSupportedMethods_amended (pipeline : String) (tags : List String)
    (providerName : String) (entry : HuggingFaceModelHubEntry) :
    (deriveSupportedMethods pipeline tags).chatCompletion
        = (pipelineIsChatLike (trimSpace (strToLower pipeline))
            || tags.any (fun t => tagIsChatLike (strToLower t)))
    ∧ (deriveSupportedMethods pipeline tags).embedding
        = (valueIsEmbeddingLike (trimSpace (strToLower pipeline))
            || tags.any (fun t => valueIsEmbeddingLike (strToLower t)))
    ∧ (deriveSupportedMethods pipeline tags).textCompletion
        = (deriveSupportedMethods pipeline tags).chatCompletion
    ∧ (deriveSupportedMethods pipeline tags).responses
        = (deriveSupportedMethods pipeline tags).chatCompletion
    ∧ (convertHubEntry providerName entry).isNone
        = (entry.modelID == ""
            || deriveSupportedMethods entry.pipelineTag entry.tags == MethodSet.empty)
    ∧ deriveSupportedMethods "text-generation" [] = chatMethods := by
  refine ⟨?_, ?_, ?_, ?_, ?_, by decide⟩
  case _ | _ | _ | _ =>
    unfold deriveSupportedMethods
    rw [tagsFold_union_spec]
    by_cases hp : pipelineIsChatLike (trimSpace (strToLower pipeline))
    · have he := chatLike_not_embLike _ hp
      simp [MethodSet.union, chatMethods, hp, he]
    · by_cases he : valueIsEmbeddingLike (trimSpace (strToLower pipeline))
      · simp [MethodSet.union, embeddingMethods, hp, he]
      · simp [MethodSet.union, MethodSet.empty, hp, he]
  case _ =>
    by_cases hid : entry.modelID = ""
    · simp [convertHubEntry, hid]
    · by_cases hs : deriveSupportedMethods entry.pipelineTag entry.tags = MethodSet.empty
      · simp [convertHubEntry, hid, hs]
      · simp [convertHubEntry, hid, hs]

end Bifrost
